import Mathlib

/-!
Verification of the worker-matching and recommendation core of the
freelance-household-recommendation-system repository (Django app `fhhwr`,
apps `tasks` and `users`).

The embedding models, faithfully to the Python source:
  * the `Task` / `Worker` rows (`tasks/models.py`, `users/models.py`),
  * the availability filter, skill matcher and dispatch of
    `TaskCreateView.form_valid` (`tasks/views.py`),
  * the similarity recommender `pearson_correlation_coefficient`
    (`tasks/recommendations.py`),
  * the status-update machine of `TaskUpdateView.form_valid` together with
    the transition restriction of `TaskStatusUpdateForm.__init__`
    (`tasks/forms.py`), and the `task_accept` / `task_reject` /
    `task_complete` function views,
  * the binary64 and 28-significant-digit decimal roundings through which
    `total_cost` is computed
    (`Decimal(timedelta.total_seconds() / 3600) * hourly_rate`).

Identifiers (worker ids, customer ids, request-group ids) are modelled as
naturals; money and ratings as exact rationals; timestamps as integers
(seconds).  Fallible Python code (uncaught `AttributeError`, `KeyError`,
`TypeError`, failed form validation, 404) is modelled with `Option`: a
`none` result stands for the request erroring out, never for a silent
no-op.
-/

namespace FHHWR

/-- The five `Task.STATUS_CHOICES` of `tasks/models.py`. -/
inductive Status where
  | requested
  | inProgress
  | completed
  | rejected
  | vanished
deriving DecidableEq, Repr

/-- A `Task` row (`tasks/models.py`).  `request_id` (a uuid string in the
source) is modelled as an optional natural; `rating` is a nullable integer;
`hourly_rate` and `total_cost` are nullable decimals, modelled as rationals. -/
structure TaskRow where
  id : Nat
  requestId : Option Nat
  customer : Nat
  worker : Option Nat
  title : List Char
  startTime : Int
  endTime : Int
  status : Status
  rating : Option Int
  hourlyRate : Option ℚ
  totalCost : Option ℚ
deriving DecidableEq, Repr

/-- A `Worker` row (`users/models.py`): id, free-text `skills`,
`hourly_rate`, `is_available` flag. -/
structure WorkerRow where
  id : Nat
  skills : List Char
  hourlyRate : ℚ
  isAvailable : Bool
deriving DecidableEq, Repr

/-! ## Availability Filter (`TaskCreateView.form_valid`, views.py 53-66) -/

/-- Source: `Task.objects.filter(worker__in=available_workers, status="in-progress",
start_time__lt=end_time, end_time__gt=start_time)`. -/
def conflictingTasks (store : List TaskRow) (available : List WorkerRow)
    (s e : Int) : List TaskRow :=
  store.filter fun t =>
    (available.any fun w => t.worker == some w.id) &&
    t.status == Status.inProgress &&
    t.startTime < e && s < t.endTime

/-- Source: `available_workers.exclude(id__in=[task.worker.id for task in
conflicting_tasks])`.  Every conflicting task has its worker in
`available`, hence non-null; `filterMap` reads the id off the `some`. -/
def availabilityFilter (store : List TaskRow) (available : List WorkerRow)
    (s e : Int) : List WorkerRow :=
  available.filter fun w =>
    !((conflictingTasks store available s e).filterMap (fun t => t.worker)).contains w.id

/-! ## Skill Matcher (`TaskCreateView.form_valid`, views.py 69-84) -/

/-- One step of Django's case-insensitive `icontains`: does `hay` start
with `needle`, comparing characters lowercased? -/
def beginsWithCI : List Char → List Char → Bool
  | _, [] => true
  | [], _ :: _ => false
  | h :: hs, n :: ns => (h.toLower == n.toLower) && beginsWithCI hs ns

/-- Django's `icontains`: `needle` occurs in `hay` as a case-insensitive
contiguous substring. -/
def containsCI : List Char → List Char → Bool
  | [], needle => needle.isEmpty
  | h :: hs, needle => beginsWithCI (h :: hs) needle || containsCI hs needle

/-- Source: `available_workers.filter(skills__icontains=query)`: the worker's
`skills` field must contain the query (the task title) as a
case-insensitive substring. -/
def matchingWorkers (available : List WorkerRow) (query : List Char) :
    List WorkerRow :=
  available.filter fun w => containsCI w.skills query

/-- Source: `Count("task", filter=Q(task__status="completed"))`: the number of the
worker's tasks with status `completed`. -/
def completedCount (store : List TaskRow) (wid : Nat) : Nat :=
  (store.filter fun t => t.worker == some wid && t.status == Status.completed).length

/-- Source: `Avg("task__rating")`: SQL average of the worker's tasks' ratings,
ignoring NULLs; NULL (`none`) when the worker has no rated task. -/
def avgRating (store : List TaskRow) (wid : Nat) : Option ℚ :=
  let rs := (store.filter fun t => t.worker == some wid).filterMap fun t => t.rating
  if rs.isEmpty then none else some ((rs.map fun z => (z : ℚ)).sum / rs.length)

/-- Descending comparison of nullable averages; SQL `ORDER BY rating DESC`
sorts NULL last, i.e. NULL counts as lower than every numeric value. -/
def avgGE : Option ℚ → Option ℚ → Bool
  | _, none => true
  | none, some _ => false
  | some x, some y => y ≤ x

/-- Source: `order_by("-tasks_completed", "-rating")` as a comparison: `a` may come
no later than `b`. -/
def rankGE (a b : Nat × Option ℚ) : Bool :=
  b.1 < a.1 || (a.1 == b.1 && avgGE a.2 b.2)

/-- Stable insertion for the descending sort: the inserted element goes in
front of the first element it ranks greater-or-equal to. -/
def insertRanked (key : WorkerRow → Nat × Option ℚ) (w : WorkerRow) :
    List WorkerRow → List WorkerRow
  | [] => [w]
  | v :: vs =>
    if rankGE (key w) (key v) then w :: v :: vs
    else v :: insertRanked key w vs

/-- Stable sort of workers by `(-tasks_completed, -rating)`. -/
def sortRanked (key : WorkerRow → Nat × Option ℚ) :
    List WorkerRow → List WorkerRow
  | [] => []
  | w :: ws => insertRanked key w (sortRanked key ws)

/-- The annotation key of views.py 77-82 / 90-95: completed-task count and
average rating, both taken from the task store. -/
def rankKey (store : List TaskRow) (w : WorkerRow) : Nat × Option ℚ :=
  (completedCount store w.id, avgRating store w.id)

/-- Source: `matching_workers.annotate(...).order_by("-tasks_completed",
"-rating").filter(skills__icontains=query)[:5]`: the ranked top five of the
skill-matching workers. -/
def skillMatcher (store : List TaskRow) (available : List WorkerRow)
    (query : List Char) : List WorkerRow :=
  ((sortRanked (rankKey store) (matchingWorkers available query)).filter
    fun w => containsCI w.skills query).take 5

/-! ## Seed selection for the fallback branch (views.py 90-97) -/

/-- Source: `available_workers.annotate(...).order_by("-tasks_completed",
"-rating").first()`: the highest-ranked available worker, `none` when the
available set is empty (in the source `top_worker` is then Python `None`). -/
def seedWorker (store : List TaskRow) (available : List WorkerRow) :
    Option WorkerRow :=
  (sortRanked (rankKey store) available).head?

/-! ## Similarity Recommender (`tasks/recommendations.py`)

Two embeddings of `pearson_correlation_coefficient`:

* a rational-arithmetic one (`simTriple` / `similarityR`) over rating
  dictionaries whose values are known non-null, used to state the formula
  claims; and
* an `Option`-valued one (`pearsonOpt`) over dictionaries with nullable
  values, modelling that Python raises `TypeError` when the arithmetic
  touches a `None` rating (`Task.rating` is a nullable column).
-/

/-- Python dict lookup on an association list. -/
def findVal (k : Nat) : List (Nat × α) → Option α
  | [] => none
  | (k2, v) :: rest => if k = k2 then some v else findVal k rest

/-- Python dict insertion `d[k] = v`: overwrite in place, else append
(dict preserves insertion order). -/
def dictInsert (k : Nat) (v : α) : List (Nat × α) → List (Nat × α)
  | [] => [(k, v)]
  | (k2, v2) :: rest =>
    if k = k2 then (k, v) :: rest else (k2, v2) :: dictInsert k v rest

/-- Source: `sum(ratings.values()) / len(ratings)`: the mean of the candidate's
dictionary values (over the candidate's whole history). -/
def candMean (candD : List (Nat × ℚ)) : ℚ :=
  (candD.map Prod.snd).sum / (candD.length : ℚ)

/-- The accumulation loop of recommendations.py 25-36: fold over the seed's
rating dictionary; on each customer also rated by the candidate, add the
deviation products, where *both* deviations are taken from the candidate's
mean (the source recomputes `sum(ratings.values()) / len(ratings)` inline
at every use; it is constant over the loop). -/
def simStep (candD : List (Nat × ℚ)) (acc : ℚ × ℚ × ℚ) (p : Nat × ℚ) :
    ℚ × ℚ × ℚ :=
  match findVal p.1 candD with
  | none => acc
  | some rc =>
    (acc.1 + (p.2 - candMean candD) * (rc - candMean candD),
     acc.2.1 + (p.2 - candMean candD) ^ 2,
     acc.2.2 + (rc - candMean candD) ^ 2)

/-- The full loop: numerator and the two sum-of-squares accumulators. -/
def simTriple (seedD candD : List (Nat × ℚ)) : ℚ × ℚ × ℚ :=
  seedD.foldl (simStep candD) (0, 0, 0)

/-- recommendations.py 38-41: `similarity = 0` when either sum of squares
is zero, else `numerator / sqrt(denominator1 * denominator2)`; the square
root forces real arithmetic. -/
noncomputable def similarityR (seedD candD : List (Nat × ℚ)) : ℝ :=
  let t := simTriple seedD candD
  if t.2.1 = 0 ∨ t.2.2 = 0 then 0
  else (t.1 : ℝ) / Real.sqrt ((t.2.1 : ℝ) * (t.2.2 : ℝ))

/-! Spec-side rendition of §4.3 of the specification, for the refinement
claim: the sums range over the shared customers, and both deviation terms
use `mean(ratings_candidate)`, the candidate's mean. -/

/-- Modelled from the spec: the customers rated by both workers, paired
with the seed's and the candidate's rating (`r_seed[c]`, `r_candidate[c]`). -/
def sharedRatings (seedD candD : List (Nat × ℚ)) : List (ℚ × ℚ) :=
  seedD.filterMap fun p => (findVal p.1 candD).map fun rc => (p.2, rc)

/-- Modelled from the spec:
`numerator = Σ (r_seed[c] - mean(ratings_candidate)) * (r_candidate[c] - mean(ratings_candidate))`. -/
def numerSpec (seedD candD : List (Nat × ℚ)) : ℚ :=
  ((sharedRatings seedD candD).map fun q =>
    (q.1 - candMean candD) * (q.2 - candMean candD)).sum

/-- Modelled from the spec: `Σ (r_seed[c] - mean_candidate)²`. -/
def den1Spec (seedD candD : List (Nat × ℚ)) : ℚ :=
  ((sharedRatings seedD candD).map fun q => (q.1 - candMean candD) ^ 2).sum

/-- Modelled from the spec: `Σ (r_candidate[c] - mean_candidate)²`. -/
def den2Spec (seedD candD : List (Nat × ℚ)) : ℚ :=
  ((sharedRatings seedD candD).map fun q => (q.2 - candMean candD) ^ 2).sum

/-- Modelled from the spec: similarity is `0` if either sum-of-squares term
is `0`, else `numerator / sqrt(den1 * den2)`. -/
noncomputable def similaritySpec (seedD candD : List (Nat × ℚ)) : ℝ :=
  if den1Spec seedD candD = 0 ∨ den2Spec seedD candD = 0 then 0
  else (numerSpec seedD candD : ℝ) /
    Real.sqrt ((den1Spec seedD candD : ℝ) * (den2Spec seedD candD : ℝ))

/-! ### The `Option`-valued recommender, nullable ratings included -/

/-- Source: `worker_ratings[task.customer.id] = task.rating` over
`Task.objects.filter(worker__id=wid, status="completed")`: the rating
dictionary of a worker, values still nullable. -/
def ratingHistory (store : List TaskRow) (wid : Nat) :
    List (Nat × Option Int) :=
  (store.filter fun t => t.worker == some wid && t.status == Status.completed).foldl
    (fun d t => dictInsert t.customer t.rating d) []

/-- Python `sum` over nullable values: adding `None` raises `TypeError`,
modelled as `none`. -/
def sumOpt : List (Option Int) → Option Int
  | [] => some 0
  | v :: vs => v.bind fun z => (sumOpt vs).map fun s => z + s

/-- Source: `sum(ratings.values()) / len(ratings)` on a nullable dictionary. -/
def candMeanOpt (candD : List (Nat × Option Int)) : Option ℚ :=
  (sumOpt (candD.map Prod.snd)).map fun s => (s : ℚ) / (candD.length : ℚ)

/-- The accumulation loop with nullable ratings: each executed body needs
the seed's rating, the candidate's rating and the candidate's mean to be
non-null, else the Python arithmetic raises `TypeError` (`none`).  Shared
customers only; a null rating on a customer the loop never pairs is never
touched. -/
def simStepOpt (candD : List (Nat × Option Int)) (accO : Option (ℚ × ℚ × ℚ))
    (p : Nat × Option Int) : Option (ℚ × ℚ × ℚ) :=
  accO.bind fun acc =>
    match findVal p.1 candD with
    | none => some acc
    | some rcO =>
      (candMeanOpt candD).bind fun m =>
        p.2.bind fun rs =>
          rcO.map fun rc =>
            (acc.1 + ((rs : ℚ) - m) * ((rc : ℚ) - m),
             acc.2.1 + ((rs : ℚ) - m) ^ 2,
             acc.2.2 + ((rc : ℚ) - m) ^ 2)

/-- The full nullable-rating loop. -/
def simTripleOpt (seedD candD : List (Nat × Option Int)) :
    Option (ℚ × ℚ × ℚ) :=
  seedD.foldl (simStepOpt candD) (some (0, 0, 0))

/-- The similarity reduced to a comparison key `(n, p)` standing for the
real number `n / √p` (`p > 0`): the zero branch gives `(0, 1)`, the other
`(numerator, denominator1 * denominator2)`. -/
def simKeyOpt (seedD candD : List (Nat × Option Int)) : Option (ℚ × ℚ) :=
  (simTripleOpt seedD candD).map fun t =>
    if t.2.1 = 0 ∨ t.2.2 = 0 then (0, 1) else (t.1, t.2.1 * t.2.2)

/-- Decides `n1 / √p1 ≥ n2 / √p2` for `p1, p2 > 0` by sign analysis and
cross-multiplied squares — the order `sorted(..., key=lambda x: x[1],
reverse=True)` uses, made exact. -/
def simGE (a b : ℚ × ℚ) : Bool :=
  if 0 ≤ a.1 then
    if b.1 ≤ 0 then true else b.1 ^ 2 * a.2 ≤ a.1 ^ 2 * b.2
  else
    if 0 ≤ b.1 then false else a.1 ^ 2 * b.2 ≤ b.1 ^ 2 * a.2

/-- Stable insertion for the descending similarity sort. -/
def insertSim (x : Nat × ℚ × ℚ) : List (Nat × ℚ × ℚ) → List (Nat × ℚ × ℚ)
  | [] => [x]
  | y :: ys => if simGE x.2 y.2 then x :: y :: ys else y :: insertSim x ys

/-- Python's stable `sorted(similarities.items(), key=lambda x: x[1],
reverse=True)`. -/
def sortSim : List (Nat × ℚ × ℚ) → List (Nat × ℚ × ℚ)
  | [] => []
  | x :: xs => insertSim x (sortSim xs)

/-- The `for worker in available_workers` loop of recommendations.py 17-43:
similarity key for every available worker other than the seed, `none` as
soon as one computation raises. -/
def collectSims (seedId : Nat) (seedD : List (Nat × Option Int))
    (store : List TaskRow) : List WorkerRow → Option (List (Nat × ℚ × ℚ))
  | [] => some []
  | w :: ws =>
    if w.id = seedId then collectSims seedId seedD store ws else
      (simKeyOpt seedD (ratingHistory store w.id)).bind fun k =>
        (collectSims seedId seedD store ws).map fun rest => (w.id, k) :: rest

/-- Source: `pearson_correlation_coefficient(worker_id, available_workers, n)`:
build the seed's rating dictionary, compute every other available worker's
similarity, sort descending, return the ids of the top `n` (the source
re-fetches the `Worker` rows by exactly these ids).  `none` models an
uncaught `TypeError` on a null rating. -/
def pearsonOpt (seedId : Nat) (available : List WorkerRow)
    (store : List TaskRow) (n : Nat) : Option (List Nat) :=
  (collectSims seedId (ratingHistory store seedId) store available).map
    fun sims => ((sortSim sims).take n).map Prod.fst

/-- The fallback branch of `TaskCreateView.form_valid` (views.py 86-102):
pick the top-ranked available worker and run the similarity recommender
seeded from it.  With an empty available set `top_worker` is Python `None`
and `top_worker.id` raises `AttributeError`, modelled by `none`. -/
def similarityFallback (store : List TaskRow) (available : List WorkerRow) :
    Option (List Nat) :=
  (seedWorker store available).bind fun top =>
    pearsonOpt top.id available store 5

/-! ## Cost arithmetic of the acceptance transition (views.py 170-173)

`task.total_cost = Decimal((task.end_time - task.start_time).total_seconds()
/ 3600) * task.hourly_rate`.  The `/` is Python float (binary64) division,
correctly rounded to nearest/ties-to-even; `Decimal(float)` converts the
binary value exactly; the `Decimal * Decimal` product is rounded to the
default context's 28 significant digits, ties-to-even.  Both roundings are
modelled exactly on rationals (normal range; the durations and rates at
hand are nowhere near binary64 or decimal overflow/subnormal limits).
-/

/-- Fuel-based base-`b` integer logarithm (`b ≥ 2`): greatest `k` with
`b ^ k ≤ n`, for `n ≥ 1` (the fuel `n` always suffices). -/
def logBAux (b : Nat) : Nat → Nat → Nat
  | _, 0 => 0
  | n, fuel + 1 => if n < b then 0 else logBAux b (n / b) fuel + 1

/-- Floor of `log_b n` on naturals. -/
def logB (b n : Nat) : Nat := logBAux b n n

/-- Floor of `log₂ q` for a positive rational. -/
def floorLog2 (q : ℚ) : Int :=
  if 1 ≤ q then (logB 2 ⌊q⌋₊ : Int)
  else
    let m := logB 2 ⌊q⁻¹⌋₊
    if q * (2 : ℚ) ^ m = 1 then -(m : Int) else -(m : Int) - 1

/-- Floor of `log₁₀ q` for a positive rational. -/
def floorLog10 (q : ℚ) : Int :=
  if 1 ≤ q then (logB 10 ⌊q⌋₊ : Int)
  else
    let m := logB 10 ⌊q⁻¹⌋₊
    if q * (10 : ℚ) ^ m = 1 then -(m : Int) else -(m : Int) - 1

/-- Round to nearest integer, ties to even. -/
def rne (x : ℚ) : Int :=
  let f := ⌊x⌋
  let r := x - (f : ℚ)
  if r < 1 / 2 then f
  else if 1 / 2 < r then f + 1
  else if f % 2 = 0 then f else f + 1

/-- Round a rational to the nearest binary64 value (normal range): 53
significant bits, ties to even. -/
def roundF64 (q : ℚ) : ℚ :=
  if q = 0 then 0
  else
    let a := |q|
    let e : Int := floorLog2 a - 52
    let m := rne (a * (2 : ℚ) ^ (-e))
    (if q < 0 then -1 else 1) * (m : ℚ) * (2 : ℚ) ^ e

/-- Round a rational to 28 significant decimal digits, ties to even: the
default `decimal` context applied to each arithmetic result. -/
def roundDec28 (q : ℚ) : ℚ :=
  if q = 0 then 0
  else
    let a := |q|
    let e : Int := floorLog10 a - 27
    let m := rne (a * (10 : ℚ) ^ (-e))
    (if q < 0 then -1 else 1) * (m : ℚ) * (10 : ℚ) ^ e

/-- views.py 170-173: the stored `total_cost` for a task of
`durationSeconds` seconds at `rate`, through the float division and the
decimal multiplication.  (`timedelta.total_seconds()` is exact for whole
seconds of this magnitude; `Decimal(float)` is an exact conversion.) -/
def totalCostCode (durationSeconds : ℚ) (rate : ℚ) : ℚ :=
  roundDec28 (roundF64 (durationSeconds / 3600) * rate)

/-! ## The status machine (`TaskUpdateView`, `TaskStatusUpdateForm`,
`task_accept` / `task_reject` / `task_complete`) -/

/-- Source: `get_object_or_404(Task, pk=pk)` / `form.instance`. -/
def findTask (store : List TaskRow) (tid : Nat) : Option TaskRow :=
  store.find? fun t => t.id == tid

/-- Source: `TaskStatusUpdateForm.__init__` (forms.py 76-85): the transitions the
form offers from the current status.  For `completed` / `rejected` /
`vanished` the dictionary lookup `valid_transitions[current_status]`
raises `KeyError` — the form cannot even be built (`none`). -/
def allowedTransitions : Status → Option (List Status)
  | Status.requested => some [Status.inProgress, Status.rejected]
  | Status.inProgress => some [Status.completed]
  | _ => none

/-- Source: `TaskUpdateView.get_form` (views.py 212-224) layered on the
form's `__init__` restriction: building the form runs `__init__` first
(`KeyError` for a `completed`/`rejected`/`vanished` instance, hence
`none`), and only then are the `status` choices overridden — to
`[in-progress, rejected]` whenever the request carries
`from_requested=true`, else to `[completed]` when the task is
`in-progress`.  The POST is validated against these final choices, so with
`?from_requested=true` an `in-progress` task accepts `in-progress` and
`rejected` again. -/
def formChoices (current : Status) (fromRequested : Bool) :
    Option (List Status) :=
  (allowedTransitions current).map fun base =>
    if fromRequested then [Status.inProgress, Status.rejected]
    else if current = Status.inProgress then [Status.completed]
    else base

/-- Source: `TaskUpdateView.form_valid` (views.py 161-210), combined with the
form's transition restriction and the `get_form` choice override
(`fromRequested` is the request's `from_requested=true` query flag).  On
`in-progress`: bind the acting worker, freeze its rate, compute
`total_cost`, and set every *other* task sharing `request_id` to
`vanished` (`filter(request_id=...).exclude(id=...)`; with a NULL
`request_id` Django matches the NULL rows).  On `completed` / `rejected`:
save the new status only.  `none` models the form refusing the transition
(KeyError or validation failure) or the 404. -/
def updateStatus (store : List TaskRow) (tid : Nat) (fromRequested : Bool)
    (new : Status) (acting : WorkerRow) : Option (List TaskRow) :=
  (findTask store tid).bind fun t =>
    (formChoices t.status fromRequested).bind fun allowed =>
      if new ∈ allowed then
        if new = Status.inProgress then
          some (store.map fun u =>
            if u.id = tid then
              { u with
                status := Status.inProgress
                worker := some acting.id
                hourlyRate := some acting.hourlyRate
                totalCost :=
                  some (totalCostCode ((u.endTime - u.startTime : Int) : ℚ)
                    acting.hourlyRate) }
            else if u.requestId = t.requestId then
              { u with status := Status.vanished }
            else u)
        else
          some (store.map fun u =>
            if u.id = tid then { u with status := new } else u)
      else none

/-- Source: `task_accept` (views.py 342-352): warn and leave the store untouched
when the task already has a worker (`false` outcome), else bind the acting
worker and set `in-progress` — no status check, no rate freeze, no cost,
no vanishing of siblings (`true` outcome).  `none` is the 404. -/
def taskAccept (store : List TaskRow) (tid : Nat) (acting : WorkerRow) :
    Option (List TaskRow × Bool) :=
  (findTask store tid).map fun t =>
    if t.worker.isSome then (store, false)
    else
      (store.map fun u =>
        if u.id = tid then
          { u with worker := some acting.id, status := Status.inProgress }
        else u, true)

/-- Source: `task_reject` (views.py 355-365): if a worker is bound, unbind it and
reset the status to `requested`, whatever the status was. -/
def taskReject (store : List TaskRow) (tid : Nat) :
    Option (List TaskRow × Bool) :=
  (findTask store tid).map fun t =>
    if t.worker.isSome then
      (store.map fun u =>
        if u.id = tid then
          { u with worker := none, status := Status.requested }
        else u, true)
    else (store, false)

/-- Source: `task_complete` (views.py 368-377): if the task is bound to the acting
worker, set `completed`, whatever the status was. -/
def taskComplete (store : List TaskRow) (tid : Nat) (acting : WorkerRow) :
    Option (List TaskRow × Bool) :=
  (findTask store tid).map fun t =>
    if t.worker == some acting.id then
      (store.map fun u =>
        if u.id = tid then { u with status := Status.completed } else u, true)
    else (store, false)

/-! ## Dispatch Orchestrator (`TaskCreateView.form_valid`, views.py 104-133) -/

/-- The validated draft of `TaskCreateForm` (title, description omitted,
window, location omitted, customer bound by the view). -/
structure Draft where
  customer : Nat
  title : List Char
  startTime : Int
  endTime : Int
deriving DecidableEq, Repr

/-- One row of the dispatch loop (views.py 110-118): a fresh task copying
the draft, bound to the candidate, rate frozen, request id set, status
defaulting to `requested`. -/
def dispatchRow (d : Draft) (id : Nat) (w : WorkerRow) (rid : Nat) : TaskRow :=
  { id := id, requestId := some rid, customer := d.customer,
    worker := some w.id, title := d.title, startTime := d.startTime,
    endTime := d.endTime, status := Status.requested, rating := none,
    hourlyRate := some w.hourlyRate, totalCost := none }

/-- The row `super().form_valid(form)` saves when the candidate loop never
ran: the bare draft — no worker, no request id, no rate, default status. -/
def draftRow (d : Draft) (id : Nat) : TaskRow :=
  { id := id, requestId := none, customer := d.customer, worker := none,
    title := d.title, startTime := d.startTime, endTime := d.endTime,
    status := Status.requested, rating := none, hourlyRate := none,
    totalCost := none }

/-- The candidate loop: one new row per candidate, consecutive fresh ids. -/
def dispatchRows (d : Draft) (rid : Nat) : List WorkerRow → Nat → List TaskRow
  | [], _ => []
  | w :: ws, k => dispatchRow d k w rid :: dispatchRows d rid ws (k + 1)

/-- views.py 104-133 after the candidate list is fixed: persist one row per
candidate and report success (`true`), or — when the loop body never ran —
report the no-match message (`false`); in that case `super().form_valid`
still inserts the bare draft row (`form.instance` was never saved, its pk
is fresh).  With a non-empty loop the final `form.save()` re-saves the last
created row in place and inserts nothing. -/
def dispatchSave (d : Draft) (candidates : List WorkerRow) (rid : Nat)
    (store : List TaskRow) : List TaskRow × Bool :=
  if candidates.isEmpty then (store ++ [draftRow d store.length], false)
  else (store ++ dispatchRows d rid candidates store.length, true)

/-! ## Concrete instances used by the per-claim evaluations -/

/-- Projection `(findTask store tid).map Task.status`: the status a task currently has. -/
def statusOf (store : List TaskRow) (tid : Nat) : Option Status :=
  (findTask store tid).map fun t => t.status

/-- An available worker (id 1) for the availability-filter boundary cases. -/
def wBoundary : WorkerRow := ⟨1, [], 0, true⟩

/-- An in-progress task of worker 1 on the window `[11, 13)`. -/
def tBoundary : TaskRow :=
  ⟨10, none, 100, some 1, [], 11, 13, Status.inProgress, none, none, none⟩

/-- An available worker (id 2) holding two non-overlapping in-progress tasks. -/
def wBusy : WorkerRow := ⟨2, [], 0, true⟩

/-- An in-progress task of worker 2 on `[1, 2)`. -/
def tBusy1 : TaskRow :=
  ⟨11, none, 100, some 2, [], 1, 2, Status.inProgress, none, none, none⟩

/-- An in-progress task of worker 2 on `[3, 4)`. -/
def tBusy2 : TaskRow :=
  ⟨12, none, 100, some 2, [], 3, 4, Status.inProgress, none, none, none⟩

/-- Skill-matcher scenario, worker with skills `"cleaning"`. -/
def wClean : WorkerRow := ⟨1, "cleaning".toList, 10, true⟩

/-- Skill-matcher scenario, worker with skills `"cleaning,cooking"`. -/
def wCleanCook : WorkerRow := ⟨2, "cleaning,cooking".toList, 10, true⟩

/-- Task store of the skill-matcher scenario: worker 1 has three completed
tasks averaging rating 4.5 (ratings 4, 5 and an unrated one); worker 2 has
five completed tasks averaging 4.0. -/
def skillStore : List TaskRow :=
  [⟨1, none, 100, some 1, [], 0, 1, Status.completed, some 4, none, none⟩,
   ⟨2, none, 101, some 1, [], 0, 1, Status.completed, some 5, none, none⟩,
   ⟨3, none, 102, some 1, [], 0, 1, Status.completed, none, none, none⟩,
   ⟨4, none, 103, some 2, [], 0, 1, Status.completed, some 4, none, none⟩,
   ⟨5, none, 104, some 2, [], 0, 1, Status.completed, some 4, none, none⟩,
   ⟨6, none, 105, some 2, [], 0, 1, Status.completed, some 4, none, none⟩,
   ⟨7, none, 106, some 2, [], 0, 1, Status.completed, some 4, none, none⟩,
   ⟨8, none, 107, some 2, [], 0, 1, Status.completed, some 4, none, none⟩]

/-- The spec's skill query: the task title. -/
def titleQuery : List Char := "need cleaning help".toList

/-- A query that actually occurs inside both skill fields. -/
def cleaningQuery : List Char := "cleaning".toList

/-- Request-group scenario: two sibling rows dispatched to workers 10/11. -/
def sib1 : TaskRow :=
  ⟨1, some 1, 100, some 10, [], 0, 7200, Status.requested, none, some 20, none⟩

/-- Second sibling of the request group. -/
def sib2 : TaskRow :=
  ⟨2, some 1, 100, some 11, [], 0, 7200, Status.requested, none, some 30, none⟩

/-- The sibling store before any status operation. -/
def sibStore : List TaskRow := [sib1, sib2]

/-- Worker 10, the one rejecting its sibling. -/
def wTen : WorkerRow := ⟨10, [], 20, true⟩

/-- Worker 11, the one accepting its sibling. -/
def wEleven : WorkerRow := ⟨11, [], 30, true⟩

/-- First operation of the C1 scenario: worker 10 rejects task 1
(`requested → rejected`, permitted by the form; the task list links carry
`from_requested=true` for requested tasks, and for a `requested` instance
the choices are the same either way). -/
def sibStep1 : Option (List TaskRow) :=
  updateStatus sibStore 1 true Status.rejected wTen

/-- Second operation: worker 11 accepts task 2
(`requested → in-progress`, permitted by the form). -/
def sibStep2 : Option (List TaskRow) :=
  sibStep1.bind fun l => updateStatus l 2 true Status.inProgress wEleven

/-- A vanished, worker-less task (reachable: a draft row saved by a
no-match dispatch — `request_id` NULL, no worker — turns `vanished` when
another NULL-request-id task is accepted through the update view). -/
def tVanished : TaskRow :=
  ⟨1, none, 100, none, [], 0, 3600, Status.vanished, none, none, none⟩

/-- The worker attempting `task_accept` on `tVanished`. -/
def wGrab : WorkerRow := ⟨7, [], 10, true⟩

/-- Projection of a task's (nullable) worker binding. -/
def workerOf (store : List TaskRow) (tid : Nat) : Option (Option Nat) :=
  (findTask store tid).map fun t => t.worker

/-- An `in-progress` task already bound to worker 10. -/
def tInProg : TaskRow :=
  ⟨1, some 1, 100, some 10, [], 0, 3600, Status.inProgress, none, some 20, none⟩

/-- Worker 7 re-accepting the already-in-progress task through the
status-update view with `?from_requested=true`: the POST validates. -/
def reacceptStep : Option (List TaskRow) :=
  updateStatus [tInProg] 1 true Status.inProgress wGrab

/-- A draft for the dispatch scenarios. -/
def d0 : Draft := ⟨100, "cleaning".toList, 0, 3600⟩

/-- Similarity scenario with a null rating: worker 1 (the seed) has a
completed task rated 4 by customer 100; worker 2 has a completed task for
the same customer whose rating is NULL. -/
def nullRatingStore : List TaskRow :=
  [⟨1, none, 100, some 1, [], 0, 1, Status.completed, some 4, none, none⟩,
   ⟨2, none, 100, some 2, [], 0, 1, Status.completed, none, none, none⟩]

/-- All-rated variant: worker 2's task is rated 5. -/
def ratedStore : List TaskRow :=
  [⟨1, none, 100, some 1, [], 0, 1, Status.completed, some 4, none, none⟩,
   ⟨2, none, 100, some 2, [], 0, 1, Status.completed, some 5, none, none⟩]

/-- The two workers of the similarity scenarios. -/
def simAvail : List WorkerRow := [⟨1, [], 10, true⟩, ⟨2, [], 10, true⟩]

/-- The store after worker 10 accepts task 1 via the update view: task 1
in progress with the rate frozen and the cost computed, task 2 vanished. -/
def sibAccepted : List TaskRow :=
  [{ sib1 with
      status := Status.inProgress
      worker := some wTen.id
      hourlyRate := some wTen.hourlyRate
      totalCost :=
        some (totalCostCode ((sib1.endTime - sib1.startTime : Int) : ℚ)
          wTen.hourlyRate) },
   { sib2 with status := Status.vanished }]

/-- The vanished sibling inside `sibAccepted`. -/
def sib2v : TaskRow := { sib2 with status := Status.vanished }

/-! ## Helper lemmas -/

lemma mem_availabilityFilter {store : List TaskRow}
    {available : List WorkerRow} {s e : Int} {w : WorkerRow} :
    w ∈ availabilityFilter store available s e ↔
      w ∈ available ∧
        ¬ ∃ t ∈ store, t.worker = some w.id ∧ t.status = Status.inProgress ∧
          t.startTime < e ∧ s < t.endTime := by
  simp [availabilityFilter, conflictingTasks, List.mem_filter]
  intro hw
  constructor
  · intro h t ht hwk hst hlt
    by_contra hgt
    push_neg at hgt
    exact h t ht w hw hwk hst hlt hgt hwk
  · intro h t ht w1 hw1 hwk1 hst hlt hgt hwkw
    have h2 := h t ht hwkw hst hlt
    omega

/-! ## Claims -/

/-- C8: a worker flagged available is excluded by the Availability Filter
iff it has an `in-progress` task whose window overlaps `[s, e)` under the
test `existing.start < e ∧ existing.end > s`; windows touching only at an
endpoint (task `[11,13)` against window `[9,11)`) do not exclude, and a
worker with several non-overlapping in-progress tasks (`[1,2)` and `[3,4)`
against window `[2,3)`) stays eligible. -/
theorem availabilityFilter_overlap_iff :
    (∀ (store : List TaskRow) (available : List WorkerRow) (s e : Int)
        (w : WorkerRow),
      w ∈ availabilityFilter store available s e ↔
        w ∈ available ∧
          ¬ ∃ t ∈ store, t.worker = some w.id ∧
            t.status = Status.inProgress ∧ t.startTime < e ∧ s < t.endTime) ∧
    wBoundary ∈ availabilityFilter [tBoundary] [wBoundary] 9 11 ∧
    wBusy ∈ availabilityFilter [tBusy1, tBusy2] [wBusy] 2 3 := by
  refine ⟨fun store available s e w => mem_availabilityFilter, ?_, ?_⟩
  · decide
  · decide

/-- C6: on an empty available-worker set the similarity fallback of the
dispatcher dereferences the `None` seed (`top_worker.id`) and raises
`AttributeError` (modelled `none`): it errs instead of yielding an empty
recommendation list. -/
theorem similarityFallback_empty_available_errs :
    ∀ store : List TaskRow, similarityFallback store [] = none := by
  intro store
  rfl

/-- C2 counterexample: a dispatch whose candidate list is empty still
mutates the task store — `super().form_valid(form)` inserts the bare draft
row — so "persists zero new Task rows / store unchanged" is false. -/
theorem noMatch_dispatch_store_changed :
    (dispatchSave d0 [] 7 []).1 ≠ ([] : List TaskRow) ∧
    (dispatchSave d0 [] 7 []).2 = false := by
  constructor
  · decide
  · rfl

/-- C2 (amended): a no-match dispatch reports the distinct no-match
outcome, and persists exactly one new row: the unassigned draft itself
(no worker, no request id, no rate); a non-empty candidate list reports
the success outcome. -/
theorem noMatch_dispatch_behavior :
    ∀ (d : Draft) (rid : Nat) (store : List TaskRow),
      dispatchSave d [] rid store = (store ++ [draftRow d store.length], false) ∧
      ∀ (c : WorkerRow) (cs : List WorkerRow),
        (dispatchSave d (c :: cs) rid store).2 = true := by
  intro d rid store
  exact ⟨rfl, fun c cs => rfl⟩

/-- C5 counterexample: with the task title `"need cleaning help"` as the
query, neither the worker with skills `"cleaning"` nor the one with skills
`"cleaning,cooking"` matches — `skills__icontains=query` requires the whole
title to occur inside the skills field — so the Skill Matcher returns no
candidates at all. -/
theorem skillMatcher_title_query_matches_nothing :
    matchingWorkers [wClean, wCleanCook] titleQuery = [] ∧
    skillMatcher skillStore [wClean, wCleanCook] titleQuery = [] := by
  constructor
  · decide
  · decide

/-- C5 (amended): with a query that does occur in both skill fields
(`"cleaning"`), both workers match and the ranking places the worker with
five completed tasks (average 4.0) before the one with three completed
tasks (average 4.5): completion count dominates average rating. -/
theorem skillMatcher_ranking_with_matching_query :
    matchingWorkers [wClean, wCleanCook] cleaningQuery = [wClean, wCleanCook] ∧
    skillMatcher skillStore [wClean, wCleanCook] cleaningQuery =
      [wCleanCook, wClean] := by
  constructor
  · decide
  · decide

/-- C1 counterexample: in a two-member request group both members reach
the `in-progress`/`completed`/`rejected` set — task 1 is rejected first
(permitted `requested → rejected`), then task 2 is accepted (permitted
`requested → in-progress`); only at that later instant does task 1 turn
`vanished`.  "At most one member ever reaches the set" is false. -/
theorem requestGroup_two_members_reach_active :
    sibStep1.map (fun l => statusOf l 1) = some (some Status.rejected) ∧
    sibStep2.map (fun l => statusOf l 2) = some (some Status.inProgress) ∧
    sibStep2.map (fun l => statusOf l 1) = some (some Status.vanished) := by
  refine ⟨rfl, ?_, ?_⟩ <;> rfl

/-- C1 (amended): the vanish guarantee holds at the status-update
transition itself — when a task becomes `in-progress` through
`TaskUpdateView.form_valid`, every other task sharing its `request_id` is
`vanished` in the resulting store.  (Across operation sequences more than
one member can still reach `in-progress`/`completed`/`rejected`, and
`task_accept` vanishes nothing, as the counterexample shows.) -/
theorem updateStatus_inProgress_vanishes_siblings :
    ∀ (ts : List TaskRow) (tid : Nat) (fr : Bool) (acting : WorkerRow)
      (ts' : List TaskRow) (t : TaskRow),
      updateStatus ts tid fr Status.inProgress acting = some ts' →
      findTask ts tid = some t →
      ∀ u' ∈ ts', u'.id ≠ tid → u'.requestId = t.requestId →
        u'.status = Status.vanished := by
  intro ts tid fr acting ts' t h1 h2 u' hu' hid hrid
  rw [updateStatus, h2] at h1
  simp only [Option.bind_eq_bind, Option.some_bind] at h1
  cases hstat : formChoices t.status fr with
  | none => rw [hstat] at h1; simp at h1
  | some allowed =>
    rw [hstat] at h1
    simp only [Option.some_bind] at h1
    by_cases hmem : Status.inProgress ∈ allowed
    · rw [if_pos hmem, if_true] at h1
      have hts' : ts' = ts.map _ := (Option.some_inj.mp h1).symm
      subst hts'
      obtain ⟨u, hu, hfu⟩ := List.mem_map.mp hu'
      by_cases hidu : u.id = tid
      · rw [if_pos hidu] at hfu
        rw [← hfu] at hid
        exact absurd hidu hid
      · rw [if_neg hidu] at hfu
        by_cases hru : u.requestId = t.requestId
        · rw [if_pos hru] at hfu
          rw [← hfu]
        · rw [if_neg hru] at hfu
          rw [← hfu] at hrid
          exact absurd hrid hru
    · rw [if_neg hmem] at h1
      simp at h1

/-- Witness for the amended C1: in the concrete sibling store, accepting
task 1 leaves task 2 (same request group, different id) `vanished`. -/
theorem updateStatus_inProgress_vanishes_siblings_witness :
    sib2v.status = Status.vanished :=
  updateStatus_inProgress_vanishes_siblings sibStore 1 true wTen sibAccepted
    sib1 rfl rfl sib2v (by decide) (by decide) (by decide)

/-- C7 counterexample: an acceptance attempt (`task_accept`) on a task
whose status is `vanished` — not `requested` — succeeds with the success
outcome and silently overwrites the state to `in-progress`; no
`ConflictError` is raised anywhere in the code. -/
theorem taskAccept_silently_overwrites_vanished :
    statusOf [tVanished] 1 = some Status.vanished ∧
    (taskAccept [tVanished] 1 wGrab).map (fun p => (statusOf p.1 1, p.2)) =
      some (some Status.inProgress, true) := by
  exact ⟨rfl, rfl⟩

/-- C7 (amended): no `ConflictError` exists anywhere.  The only guard of
`task_accept` is worker presence — on a task that already has a bound
worker it reports the warning outcome and leaves the store unchanged,
whatever the status, while a worker-less task is accepted regardless of
status.  Through the status-update view, an acceptance POST is refused
exactly when the task is neither `requested` nor (`in-progress` with the
`from_requested=true` query parameter): `completed`/`rejected`/`vanished`
instances make the form's `__init__` raise `KeyError` before any override,
but an `in-progress` task re-accepted via `?from_requested=true` validates
and is silently re-bound to the acting worker. -/
theorem acceptance_guards :
    (∀ (ts : List TaskRow) (tid : Nat) (acting : WorkerRow) (t : TaskRow),
      findTask ts tid = some t → t.worker.isSome = true →
        taskAccept ts tid acting = some (ts, false)) ∧
    (∀ (ts : List TaskRow) (tid : Nat) (acting : WorkerRow) (fr : Bool)
        (t : TaskRow),
      findTask ts tid = some t →
      (updateStatus ts tid fr Status.inProgress acting = none ↔
        ¬ (t.status = Status.requested ∨
           (t.status = Status.inProgress ∧ fr = true)))) ∧
    reacceptStep.map (fun l => (statusOf l 1, workerOf l 1)) =
      some (some Status.inProgress, some (some wGrab.id)) := by
  refine ⟨?_, ?_, ?_⟩
  · intro ts tid acting t ht hw
    rw [taskAccept, ht]
    simp [hw]
  · intro ts tid acting fr t ht
    rw [updateStatus, ht]
    simp only [Option.bind_eq_bind, Option.some_bind]
    cases hstat : t.status <;> cases fr <;>
      simp [formChoices, allowedTransitions]
  · rfl

/-- Witness for the amended C7: `task_accept` on a task with a bound
worker warns and changes nothing, and an acceptance POST without the
override on a `vanished` task is refused. -/
theorem acceptance_guards_witness :
    taskAccept [tBoundary] 10 wGrab = some ([tBoundary], false) ∧
    updateStatus [tVanished] 1 false Status.inProgress wGrab = none :=
  ⟨acceptance_guards.1 [tBoundary] 10 wGrab tBoundary (by decide) (by decide),
   (acceptance_guards.2.1 [tVanished] 1 wGrab false tVanished
     (by decide)).mpr (by decide)⟩

lemma roundF64_two : roundF64 (2 : ℚ) = 2 := by
  have hfl : ⌊(2 : ℚ)⌋₊ = 2 := by rw [Nat.floor_eq_iff (by norm_num)]; norm_num
  have hlog : floorLog2 (2 : ℚ) = 1 := by
    rw [floorLog2, if_pos (by norm_num : (1:ℚ) ≤ 2), hfl]
    simp [logB, logBAux]
  have hf : ⌊(4503599627370496 : ℚ)⌋ = 4503599627370496 := by
    rw [Int.floor_eq_iff]; norm_num
  have hrne : rne (4503599627370496 : ℚ) = 4503599627370496 := by
    rw [rne, hf]; norm_num
  rw [roundF64, if_neg (by norm_num : ¬ (2 : ℚ) = 0)]
  simp only [abs_of_pos (show (0:ℚ) < 2 by norm_num), hlog]
  norm_num
  rw [hrne]
  norm_num

lemma roundDec28_forty : roundDec28 (40 : ℚ) = 40 := by
  have hfl : ⌊(40 : ℚ)⌋₊ = 40 := by rw [Nat.floor_eq_iff (by norm_num)]; norm_num
  have hlog : floorLog10 (40 : ℚ) = 1 := by
    rw [floorLog10, if_pos (by norm_num : (1:ℚ) ≤ 40), hfl]
    simp [logB, logBAux]
  have hf : ⌊(4000000000000000000000000000 : ℚ)⌋ = 4000000000000000000000000000 := by
    rw [Int.floor_eq_iff]; norm_num
  have hrne : rne (4000000000000000000000000000 : ℚ) =
      4000000000000000000000000000 := by
    rw [rne, hf]; norm_num
  rw [roundDec28, if_neg (by norm_num : ¬ (40 : ℚ) = 0)]
  simp only [abs_of_pos (show (0:ℚ) < 40 by norm_num), hlog]
  norm_num
  rw [hrne]
  norm_num

lemma roundF64_six_fifths :
    roundF64 (4320 / 3600 : ℚ) = 5404319552844595 / 4503599627370496 := by
  have h0 : (4320/3600 : ℚ) = 6/5 := by norm_num
  have hfl : ⌊(6/5 : ℚ)⌋₊ = 1 := by rw [Nat.floor_eq_iff (by norm_num)]; norm_num
  have habs : |(6/5 : ℚ)| = 6/5 := abs_of_pos (by norm_num)
  have hlog : floorLog2 (6/5 : ℚ) = 0 := by
    rw [floorLog2, if_pos (by norm_num : (1:ℚ) ≤ 6/5), hfl]
    simp [logB, logBAux]
  have hf : ⌊(27021597764222976/5 : ℚ)⌋ = 5404319552844595 := by
    rw [Int.floor_eq_iff]; norm_num
  have hrne : rne (27021597764222976/5 : ℚ) = 5404319552844595 := by
    rw [rne, hf]; norm_num
  rw [h0, roundF64, if_neg (by norm_num : ¬ (6/5 : ℚ) = 0)]
  simp only [habs, hlog]
  norm_num
  rw [hrne]
  norm_num

lemma totalCost_two_hours : totalCostCode 7200 20 = 40 := by
  have h0 : (7200/3600 : ℚ) = 2 := by norm_num
  rw [totalCostCode, h0, roundF64_two]
  norm_num [roundDec28_forty]

lemma totalCost_72_minutes_drifts : totalCostCode 4320 10 ≠ 12 := by
  have harg : roundF64 (4320/3600 : ℚ) * 10 =
      27021597764222975/2251799813685248 := by
    rw [roundF64_six_fifths]; norm_num
  have hfl : ⌊(27021597764222975/2251799813685248 : ℚ)⌋₊ = 11 := by
    rw [Nat.floor_eq_iff (by norm_num)]; norm_num
  have hlog : floorLog10 (27021597764222975/2251799813685248 : ℚ) = 1 := by
    rw [floorLog10,
      if_pos (by norm_num : (1:ℚ) ≤ 27021597764222975/2251799813685248), hfl]
    simp [logB, logBAux]
  have hf : ⌊(40265318399999998509883880615234375/33554432 : ℚ)⌋ =
      1199999999999999955591079014 := by
    rw [Int.floor_eq_iff]; norm_num
  have hrne : rne (40265318399999998509883880615234375/33554432 : ℚ) =
      1199999999999999955591079015 := by
    rw [rne, hf]
    norm_num
  rw [totalCostCode, harg, roundDec28,
    if_neg (by norm_num : ¬ (27021597764222975/2251799813685248 : ℚ) = 0)]
  simp only
    [abs_of_pos (show (0:ℚ) < 27021597764222975/2251799813685248 by norm_num),
     hlog]
  norm_num
  rw [hrne]
  norm_num

/-- C4: the acceptance transition computes `total_cost` through a binary
float (`timedelta.total_seconds() / 3600`), so it does NOT always equal the
exact decimal product `duration_hours * hourly_rate`: a 72-minute task at
rate 10 yields 11.99999999999999955591079015 instead of 12.00 exactly.
The spec's own example (a 2-hour task at rate 20) happens to be exact
because 2.0 is a binary-representable duration. -/
theorem totalCost_uses_float_not_exact_decimal :
    totalCostCode 7200 20 = 40 ∧
    (4320 / 3600 : ℚ) * 10 = 12 ∧
    totalCostCode 4320 10 ≠ 12 := by
  exact ⟨totalCost_two_hours, by norm_num, totalCost_72_minutes_drifts⟩

lemma simStep_go (candD : List (Nat × ℚ)) :
    ∀ (seedD : List (Nat × ℚ)) (acc : ℚ × ℚ × ℚ),
      seedD.foldl (simStep candD) acc =
        (acc.1 + numerSpec seedD candD, acc.2.1 + den1Spec seedD candD,
         acc.2.2 + den2Spec seedD candD) := by
  intro seedD
  induction seedD with
  | nil =>
    intro acc
    simp [numerSpec, den1Spec, den2Spec, sharedRatings]
  | cons p rest ih =>
    intro acc
    rw [List.foldl_cons]
    cases hfv : findVal p.1 candD with
    | none =>
      rw [show simStep candD acc p = acc by rw [simStep, hfv]]
      rw [ih]
      simp [numerSpec, den1Spec, den2Spec, sharedRatings,
        List.filterMap_cons, hfv]
    | some rc =>
      rw [show simStep candD acc p =
          (acc.1 + (p.2 - candMean candD) * (rc - candMean candD),
           acc.2.1 + (p.2 - candMean candD) ^ 2,
           acc.2.2 + (rc - candMean candD) ^ 2) by rw [simStep, hfv]]
      rw [ih]
      simp [numerSpec, den1Spec, den2Spec, sharedRatings,
        List.filterMap_cons, hfv, Prod.mk.injEq]
      refine ⟨by ring, by ring, by ring⟩

lemma simTriple_eq (seedD candD : List (Nat × ℚ)) :
    simTriple seedD candD =
      (numerSpec seedD candD, den1Spec seedD candD, den2Spec seedD candD) := by
  rw [simTriple, simStep_go]
  simp

/-- C3: the similarity the recommender computes coincides, for every seed
and candidate rating dictionary, with the documented non-standard formula
in which both deviation terms use the candidate's mean; and it is `0`
whenever either sum-of-squares term is `0` (in particular with no shared
customers, where both sums are empty). -/
theorem similarity_matches_spec_formula :
    ∀ seedD candD : List (Nat × ℚ),
      similarityR seedD candD = similaritySpec seedD candD ∧
      ((den1Spec seedD candD = 0 ∨ den2Spec seedD candD = 0) →
        similarityR seedD candD = 0) := by
  intro seedD candD
  have he : similarityR seedD candD = similaritySpec seedD candD := by
    rw [similarityR, similaritySpec, simTriple_eq]
  refine ⟨he, fun h => ?_⟩
  rw [he, similaritySpec, if_pos h]

/-- Witness for C3 at the empty histories: no shared customers, both
sum-of-squares terms are `0`, and the similarity is `0`. -/
theorem similarity_matches_spec_formula_witness : similarityR [] [] = 0 :=
  (similarity_matches_spec_formula [] []).2 (Or.inl rfl)

lemma list_sum_fin (l : List (ℚ × ℚ)) (f : ℚ × ℚ → ℚ) :
    (l.map f).sum = ∑ i : Fin l.length, f (l.get i) := by
  conv_lhs => rw [← List.ofFn_get l]
  rw [List.map_ofFn, List.sum_ofFn]
  rfl

lemma list_cauchy_schwarz (l : List (ℚ × ℚ)) :
    ((l.map fun p => p.1 * p.2).sum) ^ 2 ≤
      ((l.map fun p => p.1 ^ 2).sum) * ((l.map fun p => p.2 ^ 2).sum) := by
  rw [list_sum_fin l fun p => p.1 * p.2, list_sum_fin l fun p => p.1 ^ 2,
    list_sum_fin l fun p => p.2 ^ 2]
  exact Finset.sum_mul_sq_le_sq_mul_sq Finset.univ
    (fun i => (l.get i).1) (fun i => (l.get i).2)

lemma sum_sq_nonneg (l : List ℚ) : 0 ≤ (l.map fun x => x ^ 2).sum := by
  apply List.sum_nonneg
  intro x hx
  obtain ⟨y, _, rfl⟩ := List.mem_map.mp hx
  exact sq_nonneg y

lemma den1Spec_nonneg (seedD candD : List (Nat × ℚ)) :
    0 ≤ den1Spec seedD candD := by
  rw [den1Spec, show ((sharedRatings seedD candD).map fun q =>
      (q.1 - candMean candD) ^ 2) = ((sharedRatings seedD candD).map fun q =>
      q.1 - candMean candD).map fun x => x ^ 2 by rw [List.map_map]; rfl]
  exact sum_sq_nonneg _

lemma den2Spec_nonneg (seedD candD : List (Nat × ℚ)) :
    0 ≤ den2Spec seedD candD := by
  rw [den2Spec, show ((sharedRatings seedD candD).map fun q =>
      (q.2 - candMean candD) ^ 2) = ((sharedRatings seedD candD).map fun q =>
      q.2 - candMean candD).map fun x => x ^ 2 by rw [List.map_map]; rfl]
  exact sum_sq_nonneg _

lemma numerSpec_sq_le (seedD candD : List (Nat × ℚ)) :
    numerSpec seedD candD ^ 2 ≤
      den1Spec seedD candD * den2Spec seedD candD := by
  have h := list_cauchy_schwarz ((sharedRatings seedD candD).map fun q =>
    (q.1 - candMean candD, q.2 - candMean candD))
  rw [List.map_map, List.map_map, List.map_map] at h
  exact h

/-- C9: interpreting the arithmetic exactly, the similarity the recommender
produces always lies in `[-1, 1]`: the numerator is the inner product of
the very two deviation vectors whose squared norms form the denominator
(both centred at the candidate's mean), so Cauchy–Schwarz still applies,
and the zero-denominator branch returns `0`. -/
theorem similarity_bounded :
    ∀ seedD candD : List (Nat × ℚ),
      -1 ≤ similarityR seedD candD ∧ similarityR seedD candD ≤ 1 := by
  intro seedD candD
  rw [similarityR, simTriple_eq]
  by_cases h : den1Spec seedD candD = 0 ∨ den2Spec seedD candD = 0
  · simp only [h, if_pos]
    norm_num
  · simp only [h, if_neg, not_false_iff]
    push_neg at h
    have hd1 : 0 < den1Spec seedD candD :=
      lt_of_le_of_ne (den1Spec_nonneg seedD candD) (Ne.symm h.1)
    have hd2 : 0 < den2Spec seedD candD :=
      lt_of_le_of_ne (den2Spec_nonneg seedD candD) (Ne.symm h.2)
    have hdd : (0:ℝ) < (den1Spec seedD candD : ℝ) * (den2Spec seedD candD : ℝ) := by
      exact_mod_cast mul_pos hd1 hd2
    have hsq : 0 < Real.sqrt ((den1Spec seedD candD : ℝ) *
        (den2Spec seedD candD : ℝ)) := Real.sqrt_pos.mpr hdd
    have habs : |(numerSpec seedD candD : ℝ)| ≤
        Real.sqrt ((den1Spec seedD candD : ℝ) * (den2Spec seedD candD : ℝ)) := by
      rw [← Real.sqrt_sq_eq_abs]
      apply Real.sqrt_le_sqrt
      exact_mod_cast numerSpec_sq_le seedD candD
    have hq : |(numerSpec seedD candD : ℝ) /
        Real.sqrt ((den1Spec seedD candD : ℝ) * (den2Spec seedD candD : ℝ))| ≤ 1 := by
      rw [abs_div, abs_of_pos hsq]
      exact (div_le_one hsq).mpr habs
    exact ⟨neg_le_of_abs_le hq, le_of_abs_le hq⟩

lemma findVal_mem {α : Type} {k : Nat} {d : List (Nat × α)} {v : α}
    (h : findVal k d = some v) : (k, v) ∈ d := by
  induction d with
  | nil => simp [findVal] at h
  | cons p rest ih =>
    obtain ⟨k2, v2⟩ := p
    rw [findVal] at h
    by_cases hk : k = k2
    · rw [if_pos hk] at h
      obtain rfl := Option.some_inj.mp h
      subst hk
      exact List.mem_cons_self _ _
    · rw [if_neg hk] at h
      exact List.mem_cons_of_mem _ (ih h)

lemma dictInsert_forall {α : Type} {P : Nat × α → Prop} {k : Nat} {v : α} :
    ∀ {d : List (Nat × α)}, (∀ p ∈ d, P p) → P (k, v) →
      ∀ p ∈ dictInsert k v d, P p := by
  intro d
  induction d with
  | nil =>
    intro _ hv p hp
    rw [dictInsert] at hp
    simp at hp
    subst hp
    exact hv
  | cons q rest ih =>
    intro hd hv p hp
    obtain ⟨k2, v2⟩ := q
    rw [dictInsert] at hp
    by_cases hk : k = k2
    · rw [if_pos hk] at hp
      rcases List.mem_cons.mp hp with h1 | h2
      · subst h1; exact hv
      · exact hd _ (List.mem_cons_of_mem _ h2)
    · rw [if_neg hk] at hp
      rcases List.mem_cons.mp hp with h1 | h2
      · subst h1; exact hd _ (List.mem_cons_self _ _)
      · exact ih (fun p hp => hd p (List.mem_cons_of_mem _ hp)) hv p h2

lemma foldl_dictInsert_forall :
    ∀ (l : List TaskRow) (d : List (Nat × Option Int)),
      (∀ p ∈ d, p.2.isSome = true) →
      (∀ t ∈ l, (t.rating).isSome = true) →
      ∀ p ∈ l.foldl (fun d t => dictInsert t.customer t.rating d) d,
        p.2.isSome = true := by
  intro l
  induction l with
  | nil => intro d hd _ p hp; exact hd p hp
  | cons t rest ih =>
    intro d hd hl p hp
    rw [List.foldl_cons] at hp
    exact ih _
      (dictInsert_forall hd (hl t (List.mem_cons_self _ _)))
      (fun u hu => hl u (List.mem_cons_of_mem _ hu)) p hp

lemma ratingHistory_forall {store : List TaskRow} {wid : Nat}
    (h : ∀ t ∈ store, t.worker = some wid → t.status = Status.completed →
      t.rating.isSome = true) :
    ∀ p ∈ ratingHistory store wid, p.2.isSome = true := by
  rw [ratingHistory]
  apply foldl_dictInsert_forall _ _ (by intro p hp; simp at hp)
  intro t ht
  have h2 := List.mem_filter.mp ht
  have h3 := h2.2
  simp only [Bool.and_eq_true, beq_iff_eq] at h3
  exact h t h2.1 h3.1 h3.2

lemma sumOpt_isSome {l : List (Option Int)}
    (h : ∀ v ∈ l, v.isSome = true) : (sumOpt l).isSome = true := by
  induction l with
  | nil => rfl
  | cons v vs ih =>
    obtain ⟨z, rfl⟩ := Option.isSome_iff_exists.mp
      (h v (List.mem_cons_self _ _))
    rw [sumOpt]
    have h2 := ih fun u hu => h u (List.mem_cons_of_mem _ hu)
    obtain ⟨s, hs⟩ := Option.isSome_iff_exists.mp h2
    rw [hs]
    rfl

lemma candMeanOpt_isSome {candD : List (Nat × Option Int)}
    (h : ∀ p ∈ candD, p.2.isSome = true) :
    (candMeanOpt candD).isSome = true := by
  rw [candMeanOpt]
  have h2 : (sumOpt (candD.map Prod.snd)).isSome = true := by
    apply sumOpt_isSome
    intro v hv
    obtain ⟨p, hp, rfl⟩ := List.mem_map.mp hv
    exact h p hp
  obtain ⟨s, hs⟩ := Option.isSome_iff_exists.mp h2
  rw [hs]
  rfl

lemma simStepOpt_isSome {candD : List (Nat × Option Int)}
    (hc : ∀ p ∈ candD, p.2.isSome = true) (acc : ℚ × ℚ × ℚ)
    {p : Nat × Option Int} (hp : p.2.isSome = true) :
    (simStepOpt candD (some acc) p).isSome = true := by
  rw [simStepOpt]
  simp only [Option.some_bind]
  cases hfv : findVal p.1 candD with
  | none => rfl
  | some rcO =>
    have hrc : rcO.isSome = true := hc _ (findVal_mem hfv)
    obtain ⟨rc, rfl⟩ := Option.isSome_iff_exists.mp hrc
    obtain ⟨m, hm⟩ := Option.isSome_iff_exists.mp (candMeanOpt_isSome hc)
    obtain ⟨rs, hrs⟩ := Option.isSome_iff_exists.mp hp
    rw [hm, hrs]
    rfl

lemma simTripleOpt_isSome {seedD candD : List (Nat × Option Int)}
    (hs : ∀ p ∈ seedD, p.2.isSome = true)
    (hc : ∀ p ∈ candD, p.2.isSome = true) :
    (simTripleOpt seedD candD).isSome = true := by
  rw [simTripleOpt]
  suffices haux : ∀ (l : List (Nat × Option Int)) (acc : ℚ × ℚ × ℚ),
      (∀ p ∈ l, p.2.isSome = true) →
      (l.foldl (simStepOpt candD) (some acc)).isSome = true by
    exact haux seedD (0, 0, 0) hs
  intro l
  induction l with
  | nil => intro acc _; rfl
  | cons p rest ih =>
    intro acc hl
    rw [List.foldl_cons]
    have h1 := simStepOpt_isSome hc acc (hl p (List.mem_cons_self _ _))
    obtain ⟨acc2, hacc2⟩ := Option.isSome_iff_exists.mp h1
    rw [hacc2]
    exact ih acc2 fun u hu => hl u (List.mem_cons_of_mem _ hu)

lemma simKeyOpt_isSome (seedD candD : List (Nat × Option Int))
    (hs : ∀ p ∈ seedD, p.2.isSome = true)
    (hc : ∀ p ∈ candD, p.2.isSome = true) :
    (simKeyOpt seedD candD).isSome = true := by
  rw [simKeyOpt]
  obtain ⟨t, ht⟩ := Option.isSome_iff_exists.mp (simTripleOpt_isSome hs hc)
  rw [ht]
  rfl

lemma collectSims_isSome (seedId : Nat) (seedD : List (Nat × Option Int))
    (store : List TaskRow)
    (hsd : ∀ p ∈ seedD, p.2.isSome = true) :
    ∀ ws : List WorkerRow,
      (∀ w ∈ ws, ∀ t ∈ store, t.worker = some w.id →
        t.status = Status.completed → t.rating.isSome = true) →
      (collectSims seedId seedD store ws).isSome = true := by
  intro ws
  induction ws with
  | nil => intro _; rfl
  | cons w rest ih =>
    intro hws
    rw [collectSims]
    by_cases hid : w.id = seedId
    · rw [if_pos hid]
      exact ih fun u hu => hws u (List.mem_cons_of_mem _ hu)
    · rw [if_neg hid]
      have hk := simKeyOpt_isSome seedD (ratingHistory store w.id) hsd
        (ratingHistory_forall (hws w (List.mem_cons_self _ _)))
      obtain ⟨k, hk2⟩ := Option.isSome_iff_exists.mp hk
      rw [hk2]
      obtain ⟨rest2, hrest2⟩ := Option.isSome_iff_exists.mp
        (ih fun u hu => hws u (List.mem_cons_of_mem _ hu))
      rw [Option.some_bind, hrest2]
      rfl

lemma collectSims_fst_ne {seedId : Nat} {seedD : List (Nat × Option Int)}
    {store : List TaskRow} :
    ∀ {ws : List WorkerRow} {sims : List (Nat × ℚ × ℚ)},
      collectSims seedId seedD store ws = some sims →
      ∀ x ∈ sims, x.1 ≠ seedId := by
  intro ws
  induction ws with
  | nil =>
    intro sims h x hx
    rw [collectSims] at h
    obtain rfl := Option.some_inj.mp h
    simp at hx
  | cons w rest ih =>
    intro sims h x hx
    rw [collectSims] at h
    by_cases hid : w.id = seedId
    · rw [if_pos hid] at h
      exact ih h x hx
    · rw [if_neg hid] at h
      cases hkey : simKeyOpt seedD (ratingHistory store w.id) with
      | none => rw [hkey] at h; simp at h
      | some k =>
        rw [hkey, Option.some_bind] at h
        cases hrest : collectSims seedId seedD store rest with
        | none => rw [hrest] at h; simp at h
        | some rest2 =>
          rw [hrest] at h
          obtain rfl := Option.some_inj.mp h
          rcases List.mem_cons.mp hx with h1 | h2
          · subst h1; exact hid
          · exact ih hrest x h2

lemma mem_insertSim {x y : Nat × ℚ × ℚ} :
    ∀ {l : List (Nat × ℚ × ℚ)}, x ∈ insertSim y l ↔ x = y ∨ x ∈ l := by
  intro l
  induction l with
  | nil => simp [insertSim]
  | cons z zs ih =>
    rw [insertSim]
    by_cases hc : simGE y.2 z.2
    · rw [if_pos hc]; simp
    · rw [if_neg hc]
      simp only [List.mem_cons, ih]
      tauto

lemma mem_sortSim {x : Nat × ℚ × ℚ} :
    ∀ {l : List (Nat × ℚ × ℚ)}, x ∈ sortSim l ↔ x ∈ l := by
  intro l
  induction l with
  | nil => simp [sortSim]
  | cons y ys ih =>
    rw [sortSim]
    rw [mem_insertSim]
    simp [ih]

/-- C10: the Similarity Recommender is total under the precondition that
every completed task of the seed worker and of every available candidate
has a non-null rating — it then returns at most `n` worker ids, never the
seed's — while on an input whose candidate holds a completed task with a
NULL rating on a shared customer the Python arithmetic raises `TypeError`
(the model yields `none`), an input the data model permits since
`Task.rating` is nullable. -/
theorem pearson_total_iff_ratings_present :
    (∀ (seedId : Nat) (available : List WorkerRow) (store : List TaskRow)
        (n : Nat),
      (∀ t ∈ store, t.status = Status.completed →
        (t.worker = some seedId ∨ ∃ w ∈ available, t.worker = some w.id) →
        t.rating.isSome = true) →
      (pearsonOpt seedId available store n).isSome = true ∧
      ((pearsonOpt seedId available store n).getD []).length ≤ n ∧
      seedId ∉ (pearsonOpt seedId available store n).getD []) ∧
    pearsonOpt 1 simAvail nullRatingStore 5 = none := by
  constructor
  · intro seedId available store n h
    have hsd : ∀ p ∈ ratingHistory store seedId, p.2.isSome = true :=
      ratingHistory_forall fun t ht hwk hst => h t ht hst (Or.inl hwk)
    have hcoll := collectSims_isSome seedId (ratingHistory store seedId)
      store hsd available
      fun w hw t ht hwk hst => h t ht hst (Or.inr ⟨w, hw, hwk⟩)
    obtain ⟨sims, hsims⟩ := Option.isSome_iff_exists.mp hcoll
    rw [pearsonOpt, hsims]
    refine ⟨rfl, ?_, ?_⟩
    · simp only [Option.map_some', Option.getD_some, List.length_map,
        List.length_take]
      exact min_le_left _ _
    · simp only [Option.map_some', Option.getD_some]
      intro hmem
      obtain ⟨x, hx, hfst⟩ := List.mem_map.mp hmem
      have hx2 : x ∈ sortSim sims := List.take_subset _ _ hx
      exact collectSims_fst_ne hsims x (mem_sortSim.mp hx2) hfst
  · rfl

/-- Witness for C10 on an all-rated store: the recommender completes, with
at most five recommendations, the seed worker not among them. -/
theorem pearson_total_iff_ratings_present_witness :
    (pearsonOpt 1 simAvail ratedStore 5).isSome = true ∧
    ((pearsonOpt 1 simAvail ratedStore 5).getD []).length ≤ 5 ∧
    1 ∉ (pearsonOpt 1 simAvail ratedStore 5).getD [] :=
  pearson_total_iff_ratings_present.1 1 simAvail ratedStore 5 (by decide)

end FHHWR
